import Mathlib

/-!
A shallow embedding of a small tree-walking Lisp interpreter (lexer and parser
are out of scope; the evaluator receives finished AST nodes).

Modelling conventions:
* Rust `f64` numbers are modelled as exact rationals (`ℚ`).
* The shared mutable environments (`Rc<RefCell<Environment>>`) are modelled as
  an arena: an evaluation state is a list of environment records, and an
  environment reference is an index into that list.  A freshly allocated
  environment is appended at the end of the arena.
* Rust function pointers for the eleven builtins are modelled by the tag type
  `BuiltinFn`; pointer equality becomes tag equality.
* All recursion that is unbounded in the source (evaluation, environment-chain
  walking, the derived structural comparison, which can chase environment
  references) is fuel-indexed; `none` models a computation that does not
  return (e.g. native stack exhaustion).
* `print` output is not observable in the model; only its result value is.
-/

namespace Lisp

/-- AST nodes, from `src/ast/ast.rs` (`enum Expression`). -/
inductive Expression where
  | Number (n : ℚ)
  | String (s : String)
  | Boolean (b : Bool)
  | Identifier (name : String)
  | List (elements : List Expression)

/-- Tags naming the eleven native procedures that `Environment::new` registers
(`src/evaluator/environment.rs`).  The Rust code stores raw `fn` pointers and
its derived `PartialEq` compares them by address; distinct tags model distinct
addresses. -/
inductive BuiltinFn where
  | add | sub | mul | div | eq | ne | gt | lt | ge | le | print
deriving DecidableEq

/-- `enum Callable` from `src/evaluator/value.rs`: either a builtin function
pointer or a user lambda with parameter names, body expressions and the
captured environment (an arena index standing for the `Rc` reference). -/
inductive Callable where
  | Builtin (f : BuiltinFn)
  | Lambda (params : List String) (body : List Expression) (env : Nat)

/-- `enum Value` from `src/evaluator/value.rs`. -/
inductive Value where
  | Number (n : ℚ)
  | String (s : String)
  | Boolean (b : Bool)
  | Nil
  | Function (c : Callable)

/-- `enum EvalError` from `src/evaluator/evaluator.rs`. -/
inductive EvalError where
  | UndefinedVariable (name : String)
  | TypeError (msg : String)
  | WrongNumArgs (msg : String)
  | NotCallable (v : Value)
  | SpecialFormError (msg : String)
  | DivisionByZero

/-- `struct Environment` from `src/evaluator/environment.rs`: the `HashMap`
store is an association list without duplicate keys, the parent `Rc` is an
arena index. -/
structure Environment where
  store : List (String × Value)
  parent : Option Nat

/-- The arena of all environments allocated so far. -/
abbrev EvalState := List Environment

/-- `HashMap::get` on the association-list model of the store. -/
def storeGet : List (String × Value) → String → Option Value
  | [], _ => none
  | (k, w) :: rest, name => if k = name then some w else storeGet rest name

/-- `HashMap::insert` on the association-list model: overwrite the existing
entry for the key, or append a new one. -/
def storeInsert : List (String × Value) → String → Value → List (String × Value)
  | [], name, v => [(name, v)]
  | (k, w) :: rest, name, v =>
    if k = name then (k, v) :: rest else (k, w) :: storeInsert rest name v

/-- `Environment::define` (`src/evaluator/environment.rs` line 60): insert or
overwrite in the local store of the environment at index `i`, touching no
other environment record. -/
def stDefine (st : EvalState) (i : Nat) (name : String) (v : Value) : EvalState :=
  match st[i]? with
  | some e => st.set i { e with store := storeInsert e.store name v }
  | none => st

/-- `Environment::get` (`src/evaluator/environment.rs` lines 50-58): look in
the local store, else delegate to the parent, else `UndefinedVariable`.  The
fuel bounds the parent-chain walk. -/
def envGet : Nat → EvalState → Nat → String → Option (Except EvalError Value)
  | 0, _, _, _ => none
  | n+1, st, i, name =>
    match st[i]? with
    | none => none
    | some e =>
      match storeGet e.store name with
      | some v => some (.ok v)
      | none =>
        match e.parent with
        | some p => envGet n st p name
        | none => some (.error (.UndefinedVariable name))

/-- Message produced by `check_num_args` in `src/evaluator/builtins.rs`. -/
def numArgsMsg (func_name : String) (expected got : Nat) : String :=
  s!"{func_name} expects {expected} arguments, but got {got}"

/-- Message produced by `check_min_args` in `src/evaluator/builtins.rs`. -/
def minArgsMsg (func_name : String) (min_expected got : Nat) : String :=
  s!"{func_name} expects at least {min_expected} arguments, but got {got}"

/-- Message produced by `get_num_arg` in `src/evaluator/builtins.rs`. -/
def numbersMsg (func_name : String) : String :=
  s!"{func_name} expects numbers"

/-- `check_num_args` from `src/evaluator/builtins.rs`. -/
def check_num_args (func_name : String) (args : List Value) (expected : Nat) :
    Except EvalError Unit :=
  if args.length ≠ expected then
    .error (.WrongNumArgs (numArgsMsg func_name expected args.length))
  else
    .ok ()

/-- `check_min_args` from `src/evaluator/builtins.rs`. -/
def check_min_args (func_name : String) (args : List Value) (min_expected : Nat) :
    Except EvalError Unit :=
  if args.length < min_expected then
    .error (.WrongNumArgs (minArgsMsg func_name min_expected args.length))
  else
    .ok ()

/-- `get_num_arg` from `src/evaluator/builtins.rs`. -/
def get_num_arg (func_name : String) (arg : Value) : Except EvalError ℚ :=
  match arg with
  | .Number n => .ok n
  | _ => .error (.TypeError (numbersMsg func_name))

/-- `get_two_num_args` from `src/evaluator/builtins.rs`. -/
def get_two_num_args (func_name : String) (args : List Value) :
    Except EvalError (ℚ × ℚ) :=
  match check_num_args func_name args 2 with
  | .error e => .error e
  | .ok _ =>
    match args with
    | [x, y] =>
      match get_num_arg func_name x with
      | .error e => .error e
      | .ok a =>
        match get_num_arg func_name y with
        | .error e => .error e
        | .ok b => .ok (a, b)
    | _ => .error (.WrongNumArgs (numArgsMsg func_name 2 args.length))

/-- `get_all_num_args` from `src/evaluator/builtins.rs`: collect all arguments
as numbers, failing at the first non-number. -/
def get_all_num_args (func_name : String) : List Value → Except EvalError (List ℚ)
  | [] => .ok []
  | a :: rest =>
    match get_num_arg func_name a with
    | .error e => .error e
    | .ok n =>
      match get_all_num_args func_name rest with
      | .error e => .error e
      | .ok ns => .ok (n :: ns)

/-- `builtin_add` from `src/evaluator/builtins.rs`: sum of all arguments. -/
def builtin_add (args : List Value) : Except EvalError Value :=
  match get_all_num_args "+" args with
  | .error e => .error e
  | .ok numbers => .ok (.Number numbers.sum)

/-- `builtin_sub` from `src/evaluator/builtins.rs`: at least one argument;
unary minus for one argument, else first minus the sum of the rest. -/
def builtin_sub (args : List Value) : Except EvalError Value :=
  match check_min_args "-" args 1 with
  | .error e => .error e
  | .ok _ =>
    match get_all_num_args "-" args with
    | .error e => .error e
    | .ok numbers =>
      match numbers with
      | [first] => .ok (.Number (-first))
      | first :: rest => .ok (.Number (first - rest.sum))
      | [] => .ok (.Number 0)   -- unreachable: the min-arity check has passed

/-- `builtin_mul` from `src/evaluator/builtins.rs`: product of all
arguments. -/
def builtin_mul (args : List Value) : Except EvalError Value :=
  match get_all_num_args "*" args with
  | .error e => .error e
  | .ok numbers => .ok (.Number numbers.prod)

/-- `builtin_div` from `src/evaluator/builtins.rs`: exactly two numbers, a
zero divisor fails with `DivisionByZero`, otherwise the exact quotient. -/
def builtin_div (args : List Value) : Except EvalError Value :=
  match get_two_num_args "/" args with
  | .error e => .error e
  | .ok (numerator, denominator) =>
    if denominator = 0 then .error .DivisionByZero
    else .ok (.Number (numerator / denominator))

/-- `builtin_gt` from `src/evaluator/builtins.rs`. -/
def builtin_gt (args : List Value) : Except EvalError Value :=
  match get_two_num_args ">" args with
  | .error e => .error e
  | .ok (a, b) => .ok (.Boolean (decide (a > b)))

/-- `builtin_lt` from `src/evaluator/builtins.rs`. -/
def builtin_lt (args : List Value) : Except EvalError Value :=
  match get_two_num_args "<" args with
  | .error e => .error e
  | .ok (a, b) => .ok (.Boolean (decide (a < b)))

/-- `builtin_ge` from `src/evaluator/builtins.rs`. -/
def builtin_ge (args : List Value) : Except EvalError Value :=
  match get_two_num_args ">=" args with
  | .error e => .error e
  | .ok (a, b) => .ok (.Boolean (decide (a ≥ b)))

/-- `builtin_le` from `src/evaluator/builtins.rs`. -/
def builtin_le (args : List Value) : Except EvalError Value :=
  match get_two_num_args "<=" args with
  | .error e => .error e
  | .ok (a, b) => .ok (.Boolean (decide (a ≤ b)))

/-- `builtin_print` from `src/evaluator/builtins.rs`: the output side effect
is outside the model; the call always succeeds with `Nil`. -/
def builtin_print (_args : List Value) : Except EvalError Value :=
  .ok .Nil

mutual

/-- Derived `PartialEq` of `Expression` (`src/ast/ast.rs`): plain structural
comparison of AST nodes, fuel-indexed only because the nested list recursion
is expressed uniformly with the other comparison functions. -/
def beqExpr : Nat → Expression → Expression → Option Bool
  | 0, _, _ => none
  | _+1, .Number a, .Number b => some (decide (a = b))
  | _+1, .String s, .String t => some (decide (s = t))
  | _+1, .Boolean a, .Boolean b => some (a == b)
  | _+1, .Identifier a, .Identifier b => some (decide (a = b))
  | n+1, .List xs, .List ys => beqExprList n xs ys
  | _+1, _, _ => some false

/-- Derived `PartialEq` of `Vec<Expression>`: element-wise comparison. -/
def beqExprList : Nat → List Expression → List Expression → Option Bool
  | 0, _, _ => none
  | _+1, [], [] => some true
  | n+1, x :: xs, y :: ys =>
    match beqExpr n x y with
    | none => none
    | some false => some false
    | some true => beqExprList n xs ys
  | _+1, _, _ => some false

end

mutual

/-- The derived `PartialEq` of `Value` (`src/evaluator/value.rs`): numbers,
strings and booleans structurally, `Nil` only to `Nil`, and `Function` by the
derived comparison of the underlying `Callable` (the `Rc` is dereferenced).
The fuel bounds the recursion through environment references, which the Rust
code follows with the native stack and which can fail to terminate. -/
def beqValue : Nat → EvalState → Value → Value → Option Bool
  | 0, _, _, _ => none
  | _+1, _, .Number a, .Number b => some (decide (a = b))
  | _+1, _, .String s, .String t => some (decide (s = t))
  | _+1, _, .Boolean a, .Boolean b => some (a == b)
  | _+1, _, .Nil, .Nil => some true
  | n+1, st, .Function c, .Function d => beqCallable n st c d
  | _+1, _, _, _ => some false

/-- The derived `PartialEq` of `Callable` (`src/evaluator/value.rs`):
builtins by function-pointer identity; lambdas field-wise, comparing the
parameter list, the body expressions and the captured environments
structurally (`Rc<RefCell<Environment>>` compares the pointed-to
environments, not the pointers). -/
def beqCallable : Nat → EvalState → Callable → Callable → Option Bool
  | 0, _, _, _ => none
  | _+1, _, .Builtin f, .Builtin g => some (decide (f = g))
  | n+1, st, .Lambda p1 b1 e1, .Lambda p2 b2 e2 =>
    if p1 = p2 then
      match beqExprList n b1 b2 with
      | none => none
      | some false => some false
      | some true => beqEnvRef n st e1 e2
    else some false
  | _+1, _, _, _ => some false

/-- The derived `PartialEq` of `Environment`: compare the stores as maps and
the parent references recursively (`Option<Rc<RefCell<Environment>>>`
compares the referenced environments). -/
def beqEnvRef : Nat → EvalState → Nat → Nat → Option Bool
  | 0, _, _, _ => none
  | n+1, st, i, j =>
    match st[i]?, st[j]? with
    | some ea, some eb =>
      match beqStore n st ea.store eb.store with
      | none => none
      | some false => some false
      | some true =>
        match ea.parent, eb.parent with
        | none, none => some true
        | some pi, some pj => beqEnvRef n st pi pj
        | _, _ => some false
    | _, _ => none

/-- `HashMap` equality: equal sizes and every key of the left map present in
the right map with an equal value. -/
def beqStore : Nat → EvalState → List (String × Value) → List (String × Value) →
    Option Bool
  | 0, _, _, _ => none
  | n+1, st, s1, s2 =>
    if s1.length ≠ s2.length then some false
    else beqStoreEntries n st s1 s2

/-- The entry-by-entry part of `HashMap` equality. -/
def beqStoreEntries : Nat → EvalState → List (String × Value) →
    List (String × Value) → Option Bool
  | 0, _, _, _ => none
  | _+1, _, [], _ => some true
  | n+1, st, (k, v) :: rest, s2 =>
    match storeGet s2 k with
    | none => some false
    | some w =>
      match beqValue n st v w with
      | none => none
      | some false => some false
      | some true => beqStoreEntries n st rest s2

end

/-- `builtin_eq` from `src/evaluator/builtins.rs`: exactly two arguments,
compared with the derived `PartialEq` of `Value` (which needs the arena and
fuel because it can chase environment references). -/
def builtin_eq (st : EvalState) (fuel : Nat) (args : List Value) :
    Option (Except EvalError Value) :=
  match args with
  | [a, b] =>
    match beqValue fuel st a b with
    | none => none
    | some r => some (.ok (.Boolean r))
  | _ => some (.error (.WrongNumArgs (numArgsMsg "=" 2 args.length)))

/-- `builtin_ne` from `src/evaluator/builtins.rs`: the negation of
`builtin_eq`'s comparison. -/
def builtin_ne (st : EvalState) (fuel : Nat) (args : List Value) :
    Option (Except EvalError Value) :=
  match args with
  | [a, b] =>
    match beqValue fuel st a b with
    | none => none
    | some r => some (.ok (.Boolean (!r)))
  | _ => some (.error (.WrongNumArgs (numArgsMsg "!=" 2 args.length)))

/-- Dispatch on a builtin function pointer: the `Callable::Builtin` call
branch of `apply_function_call`.  Only `=` and `!=` consult the arena. -/
def applyBuiltin (st : EvalState) (fuel : Nat) (f : BuiltinFn) (args : List Value) :
    Option (Except EvalError Value) :=
  match f with
  | .add => some (builtin_add args)
  | .sub => some (builtin_sub args)
  | .mul => some (builtin_mul args)
  | .div => some (builtin_div args)
  | .eq => builtin_eq st fuel args
  | .ne => builtin_ne st fuel args
  | .gt => some (builtin_gt args)
  | .lt => some (builtin_lt args)
  | .ge => some (builtin_ge args)
  | .le => some (builtin_le args)
  | .print => some (builtin_print args)

/-- The builtin registration table of `Environment::new`
(`src/evaluator/environment.rs` lines 22-34), in source order. -/
def builtinRegistrations : List (String × BuiltinFn) :=
  [("+", .add), ("-", .sub), ("*", .mul), ("/", .div), ("=", .eq), ("!=", .ne),
   (">", .gt), ("<", .lt), (">=", .ge), ("<=", .le), ("print", .print)]

/-- The store built by `Environment::new`: every builtin inserted in
registration order into an empty map. -/
def globalStore : List (String × Value) :=
  builtinRegistrations.foldl
    (fun s p => storeInsert s p.1 (.Function (.Builtin p.2))) []

/-- The root environment produced by `Environment::new`: no parent,
pre-populated with the builtins. -/
def globalEnvironment : Environment :=
  { store := globalStore, parent := none }

/-- The arena at interpreter start: just the global environment, at index 0. -/
def initState : EvalState := [globalEnvironment]

/-- Arity-mismatch message of a lambda call
(`src/evaluator/evaluator.rs` lines 181-185). -/
def lambdaArityErrMsg (expected got : Nat) : String :=
  s!"Function expects {expected} arguments, but got {got}"

/-- Arity message of the `if` special form
(`src/evaluator/evaluator.rs` line 77). -/
def ifArityMsg : String :=
  "if expects 2 or 3 arguments (condition then-expr [else-expr])"

/-- Arity message of the `let` special form. -/
def letArityMsg : String := "let expects 2 arguments (variable value)"

/-- Name-position message of the `let` special form. -/
def letNameMsg : String := "let expects an identifier as variable name"

/-- Arity message of the `lambda` special form. -/
def lambdaArityMsg : String := "lambda expects at least (params) body"

/-- Parameter-element message of the `lambda` special form. -/
def lambdaParamsIdentMsg : String := "lambda parameters must be identifiers"

/-- Parameter-list message of the `lambda` special form. -/
def lambdaParamsListMsg : String := "lambda parameters must be a list"

/-- The parameter-collection loop of the `lambda` special form
(`src/evaluator/evaluator.rs` lines 122-139): every element of the parameter
list must be an identifier; the first non-identifier aborts with a type
error. -/
def collectParams : List Expression → Except EvalError (List String)
  | [] => .ok []
  | .Identifier p :: rest =>
    match collectParams rest with
    | .ok ps => .ok (p :: ps)
    | .error err => .error err
  | _ :: _ => .error (.TypeError lambdaParamsIdentMsg)

/-- The parameter-binding loop of a lambda call
(`src/evaluator/evaluator.rs` lines 192-196): define each parameter name to
the corresponding argument value, in order, in the fresh call store. -/
def bindParams (params : List String) (args : List Value) : List (String × Value) :=
  (params.zip args).foldl (fun s pa => storeInsert s pa.1 pa.2) []

mutual

/-- `Evaluator::evaluate` (`src/evaluator/evaluator.rs` lines 55-158):
literals evaluate to themselves, identifiers by chain lookup, the empty list
to `Nil`; a non-empty list headed by the identifier `if`, `let` or `lambda`
is a special form, everything else is a procedure call.  The result pairs the
source's `Result<Value, EvalError>` with the arena after evaluation; `none`
models a run that does not return. -/
def evaluate : Nat → Expression → Nat → EvalState →
    Option (Except EvalError Value × EvalState)
  | 0, _, _, _ => none
  | n+1, expr, envIdx, st =>
    match expr with
    | .Number num => some (.ok (.Number num), st)
    | .String s => some (.ok (.String s), st)
    | .Boolean b => some (.ok (.Boolean b), st)
    | .Identifier name =>
      match envGet (n+1) st envIdx name with
      | none => none
      | some r => some (r, st)
    | .List [] => some (.ok .Nil, st)
    | .List (head :: rest) =>
      match head with
      | .Identifier op =>
        if op = "if" then
          match rest with
          | [c, t] =>
            match evaluate n c envIdx st with
            | none => none
            | some (.error err, st1) => some (.error err, st1)
            | some (.ok v, st1) =>
              match v with
              | .Boolean true => evaluate n t envIdx st1
              | _ => some (.ok .Nil, st1)
          | [c, t, e] =>
            match evaluate n c envIdx st with
            | none => none
            | some (.error err, st1) => some (.error err, st1)
            | some (.ok v, st1) =>
              match v with
              | .Boolean true => evaluate n t envIdx st1
              | _ => evaluate n e envIdx st1
          | _ => some (.error (.WrongNumArgs ifArityMsg), st)
        else if op = "let" then
          match rest with
          | [varNameExpr, valueExpr] =>
            match varNameExpr with
            | .Identifier varName =>
              match evaluate n valueExpr envIdx st with
              | none => none
              | some (.error err, st1) => some (.error err, st1)
              | some (.ok value, st1) =>
                some (.ok .Nil, stDefine st1 envIdx varName value)
            | _ => some (.error (.TypeError letNameMsg), st)
          | _ => some (.error (.WrongNumArgs letArityMsg), st)
        else if op = "lambda" then
          match rest with
          | paramsExpr :: b :: bs =>
            match paramsExpr with
            | .List paramList =>
              match collectParams paramList with
              | .error err => some (.error err, st)
              | .ok params =>
                some (.ok (.Function (.Lambda params (b :: bs) envIdx)), st)
            | _ => some (.error (.TypeError lambdaParamsListMsg), st)
          | _ => some (.error (.WrongNumArgs lambdaArityMsg), st)
        else apply_function_call n (.Identifier op) rest envIdx st
      | _ => apply_function_call n head rest envIdx st

/-- `Evaluator::eval_args` (`src/evaluator/evaluator.rs` lines 160-165):
evaluate the argument expressions left to right in the given (caller)
environment, threading the arena, stopping at the first error. -/
def eval_args : Nat → List Expression → Nat → EvalState →
    Option (Except EvalError (List Value) × EvalState)
  | 0, _, _, _ => none
  | _+1, [], _, st => some (.ok [], st)
  | n+1, a :: rest, envIdx, st =>
    match evaluate n a envIdx st with
    | none => none
    | some (.error err, st1) => some (.error err, st1)
    | some (.ok v, st1) =>
      match eval_args n rest envIdx st1 with
      | none => none
      | some (.error err, st2) => some (.error err, st2)
      | some (.ok vs, st2) => some (.ok (v :: vs), st2)
termination_by structural n => n

/-- `Evaluator::apply_function_call` (`src/evaluator/evaluator.rs` lines
167-208): evaluate the head expression, then every argument expression in
the caller's environment, and only then require the head's value to be a
`Function`, failing with `NotCallable` otherwise. -/
def apply_function_call : Nat → Expression → List Expression → Nat → EvalState →
    Option (Except EvalError Value × EvalState)
  | 0, _, _, _, _ => none
  | n+1, funcExpr, argsExprs, envIdx, st =>
    match evaluate n funcExpr envIdx st with
    | none => none
    | some (.error err, st1) => some (.error err, st1)
    | some (.ok funcValue, st1) =>
      match eval_args n argsExprs envIdx st1 with
      | none => none
      | some (.error err, st2) => some (.error err, st2)
      | some (.ok argsValues, st2) =>
        match funcValue with
        | .Function callable => apply_callable n callable argsValues st2
        | _ => some (.error (.NotCallable funcValue), st2)

/-- The callable-dispatch part of `apply_function_call`
(`src/evaluator/evaluator.rs` lines 177-204): a builtin is invoked directly;
a lambda first checks the exact argument count, then allocates a fresh
environment whose parent is the lambda's captured environment, binds the
parameters there and evaluates the body expressions in sequence. -/
def apply_callable : Nat → Callable → List Value → EvalState →
    Option (Except EvalError Value × EvalState)
  | 0, _, _, _ => none
  | n+1, .Builtin f, argsValues, st =>
    match applyBuiltin st n f argsValues with
    | none => none
    | some r => some (r, st)
  | n+1, .Lambda params body capturedEnv, argsValues, st =>
    if argsValues.length ≠ params.length then
      some (.error (.WrongNumArgs (lambdaArityErrMsg params.length argsValues.length)), st)
    else
      evalSeq n body st.length
        (st ++ [{ store := bindParams params argsValues, parent := some capturedEnv }])
        .Nil

/-- The body loop of a lambda call (`src/evaluator/evaluator.rs` lines
198-202): evaluate each body expression in sequence in the call environment,
starting from `Nil`, returning the last value. -/
def evalSeq : Nat → List Expression → Nat → EvalState → Value →
    Option (Except EvalError Value × EvalState)
  | 0, _, _, _, _ => none
  | _+1, [], _, st, last => some (.ok last, st)
  | n+1, e :: rest, envIdx, st, _last =>
    match evaluate n e envIdx st with
    | none => none
    | some (.error err, st1) => some (.error err, st1)
    | some (.ok v, st1) => evalSeq n rest envIdx st1 v

end

/-- The loop of `Evaluator::eval_program` (`src/evaluator/evaluator.rs` lines
210-218): evaluate every top-level node in order against the global
environment (arena index 0), keeping the last result (initially `Nil`) and
aborting at the first error. -/
def evalProgramLoop (fuel : Nat) : List Expression → Value → EvalState →
    Option (Except EvalError Value × EvalState)
  | [], last, st => some (.ok last, st)
  | e :: rest, _, st =>
    match evaluate fuel e 0 st with
    | none => none
    | some (.error err, st1) => some (.error err, st1)
    | some (.ok v, st1) => evalProgramLoop fuel rest v st1

/-- `Evaluator::eval_program` on a fresh interpreter (`Evaluator::new`
followed by `eval_program`): the single persistent global environment is the
arena's index 0. -/
def eval_program (fuel : Nat) (program : List Expression) :
    Option (Except EvalError Value × EvalState) :=
  evalProgramLoop fuel program .Nil initState

/-- The observable result of a program run (the `Result` without the final
arena). -/
def runProgram (fuel : Nat) (program : List Expression) :
    Option (Except EvalError Value) :=
  (eval_program fuel program).map Prod.fst

/-- The lambda form `(lambda (x) x)`. -/
def lamIdForm : Expression :=
  .List [.Identifier "lambda", .List [.Identifier "x"], .Identifier "x"]

/-- The program `(= (lambda (x) x) (lambda (x) x))`: two separately evaluated
lambda forms with identical parameter lists and bodies, compared with `=`. -/
def eqLambdasProg : List Expression := [.List [.Identifier "=", lamIdForm, lamIdForm]]

/-- The program `(1 z)` with `z` unbound: a non-callable head together with a
failing argument expression. -/
def headNotCallableProg : List Expression := [.List [.Number 1, .Identifier "z"]]

/-- The scoping program `(let x 1) (let f (lambda () x)) (let x 2) (f)`. -/
def captureOverwriteProg : List Expression :=
  [.List [.Identifier "let", .Identifier "x", .Number 1],
   .List [.Identifier "let", .Identifier "f",
     .List [.Identifier "lambda", .List [], .Identifier "x"]],
   .List [.Identifier "let", .Identifier "x", .Number 2],
   .List [.Identifier "f"]]

/-- `(let x 1) (let f (lambda () x)) (let g (lambda (x) (f))) (g 2)`: the
call site of `f` (inside `g`) has its own binding of `x`, which lexical
scoping must ignore. -/
def callShadowProg : List Expression :=
  [.List [.Identifier "let", .Identifier "x", .Number 1],
   .List [.Identifier "let", .Identifier "f",
     .List [.Identifier "lambda", .List [], .Identifier "x"]],
   .List [.Identifier "let", .Identifier "g",
     .List [.Identifier "lambda", .List [.Identifier "x"], .List [.Identifier "f"]]],
   .List [.Identifier "g", .Number 2]]

/-- `(let x 1) (let f (lambda () (let x 99))) (f) x`: a `let` inside a lambda
body that shadows a global name. -/
def letShadowLambdaProg : List Expression :=
  [.List [.Identifier "let", .Identifier "x", .Number 1],
   .List [.Identifier "let", .Identifier "f",
     .List [.Identifier "lambda", .List [],
       .List [.Identifier "let", .Identifier "x", .Number 99]]],
   .List [.Identifier "f"],
   .Identifier "x"]

/-- `(let f (lambda (a b) a)) (f 1)`: a two-parameter lambda called with one
argument. -/
def arityOneProg : List Expression :=
  [.List [.Identifier "let", .Identifier "f",
     .List [.Identifier "lambda", .List [.Identifier "a", .Identifier "b"],
       .Identifier "a"]],
   .List [.Identifier "f", .Number 1]]

/-- `(let f (lambda (a b) a)) (f 1 2 3)`: a two-parameter lambda called with
three arguments. -/
def arityThreeProg : List Expression :=
  [.List [.Identifier "let", .Identifier "f",
     .List [.Identifier "lambda", .List [.Identifier "a", .Identifier "b"],
       .Identifier "a"]],
   .List [.Identifier "f", .Number 1, .Number 2, .Number 3]]

/-- `(let x (+ (let y 2) z))` with `z` unbound: the value expression defines
`y` as a side effect and then fails. -/
def letFailProg : List Expression :=
  [.List [.Identifier "let", .Identifier "x",
    .List [.Identifier "+", .List [.Identifier "let", .Identifier "y", .Number 2],
      .Identifier "z"]]]

/-- `(let x 5) x`: an earlier binding read by a later top-level node. -/
def persistProg : List Expression :=
  [.List [.Identifier "let", .Identifier "x", .Number 5], .Identifier "x"]

/-- `1 2 3`: the program result is the last node's value. -/
def lastValueProg : List Expression := [.Number 1, .Number 2, .Number 3]

/-- `z (let x 1)` with `z` unbound: the first node fails. -/
def abortProg : List Expression :=
  [.Identifier "z", .List [.Identifier "let", .Identifier "x", .Number 1]]

/-- Collecting numeric arguments from a list of `Number` values always
succeeds and returns the underlying rationals. -/
theorem get_all_num_args_map (fn : String) (qs : List ℚ) :
    get_all_num_args fn (qs.map .Number) = .ok qs := by
  induction qs with
  | nil => rfl
  | cons q rest ih => simp [get_all_num_args, get_num_arg, ih]

/-- `stDefine` changes at most the record it targets. -/
theorem stDefine_getElem_ne (st : EvalState) (i : Nat) (name : String) (v : Value)
    (j : Nat) (hj : j ≠ i) : (stDefine st i name v)[j]? = st[j]? := by
  unfold stDefine
  cases h : st[i]? with
  | none => rfl
  | some e => exact List.getElem?_set_ne (Ne.symm hj)

/-- C4.  An `if` form with 2 or 3 sub-expressions evaluates the condition
first; the then-branch runs exactly on `Boolean true`, every other condition
value selects the else-branch (or yields `Nil` when absent); any other arity
fails with `WrongNumArgs` leaving the arena untouched and evaluating no
sub-expression (the error is produced uniformly in the sub-expressions). -/
theorem c4_if_semantics :
    (∀ n rest i st, rest.length < 2 ∨ rest.length > 3 →
       evaluate (n+1) (.List (.Identifier "if" :: rest)) i st =
         some (.error (.WrongNumArgs ifArityMsg), st)) ∧
    (∀ n c t e i st st1, evaluate n c i st = some (.ok (.Boolean true), st1) →
       evaluate (n+1) (.List [.Identifier "if", c, t, e]) i st = evaluate n t i st1) ∧
    (∀ n c t i st st1, evaluate n c i st = some (.ok (.Boolean true), st1) →
       evaluate (n+1) (.List [.Identifier "if", c, t]) i st = evaluate n t i st1) ∧
    (∀ n c t e i st v st1, evaluate n c i st = some (.ok v, st1) → v ≠ .Boolean true →
       evaluate (n+1) (.List [.Identifier "if", c, t, e]) i st = evaluate n e i st1) ∧
    (∀ n c t i st v st1, evaluate n c i st = some (.ok v, st1) → v ≠ .Boolean true →
       evaluate (n+1) (.List [.Identifier "if", c, t]) i st = some (.ok .Nil, st1)) ∧
    runProgram 100 [.List [.Identifier "if", .Number 0, .String "a", .String "b"]] =
      some (.ok (.String "b")) ∧
    runProgram 100 [.List [.Identifier "if", .String "x", .String "a", .String "b"]] =
      some (.ok (.String "b")) ∧
    runProgram 100 [.List [.Identifier "if", .Boolean false, .String "a", .String "b"]] =
      some (.ok (.String "b")) := by
  refine ⟨?_, ?_, ?_, ?_, ?_, rfl, rfl, rfl⟩
  · intro n rest i st h
    rcases rest with _ | ⟨a, _ | ⟨b, _ | ⟨c, _ | ⟨d, r⟩⟩⟩⟩
    · rfl
    · rfl
    · simp at h
    · simp at h
    · rfl
  · intro n c t e i st st1 h
    simp only [evaluate, h]
    simp
  · intro n c t i st st1 h
    simp only [evaluate, h]
    simp
  · intro n c t e i st v st1 h hv
    simp only [evaluate, h]
    simp only [if_pos trivial]
  · intro n c t i st v st1 h hv
    simp only [evaluate, h]
    simp only [if_pos trivial]

/-- C4 witness: the general parts applied at concrete inputs. -/
theorem c4_if_semantics_witness :
    evaluate 3 (.List [.Identifier "if", .Boolean true, .Number 1, .Number 2]) 0 initState =
      evaluate 2 (.Number 1) 0 initState ∧
    evaluate 3 (.List [.Identifier "if", .Number 0, .Number 1, .Number 2]) 0 initState =
      evaluate 2 (.Number 2) 0 initState ∧
    evaluate 3 (.List [.Identifier "if", .Number 0]) 0 initState =
      some (.error (.WrongNumArgs ifArityMsg), initState) :=
  ⟨c4_if_semantics.2.1 2 (.Boolean true) (.Number 1) (.Number 2) 0 initState initState rfl,
   c4_if_semantics.2.2.2.1 2 (.Number 0) (.Number 1) (.Number 2) 0 initState
     (.Number 0) initState rfl (fun h => Value.noConfusion h),
   c4_if_semantics.1 2 [.Number 0] 0 initState (by simp)⟩

/-- C5.  A `let` form evaluates its value expression in the current
environment and then defines the name in the current (innermost) environment
only, returning `Nil`; `stDefine` leaves every other environment record
unchanged, and shadowing a global inside a lambda body leaves the global
binding intact after the call returns. -/
theorem c5_let_innermost :
    (∀ n name vexpr i st v st1, evaluate n vexpr i st = some (.ok v, st1) →
       evaluate (n+1) (.List [.Identifier "let", .Identifier name, vexpr]) i st =
         some (.ok .Nil, stDefine st1 i name v)) ∧
    (∀ st i name v j, j ≠ i → (stDefine st i name v)[j]? = st[j]?) ∧
    runProgram 100 letShadowLambdaProg = some (.ok (.Number 1)) := by
  refine ⟨?_, ?_, rfl⟩
  · intro n name vexpr i st v st1 h
    simp only [evaluate, h]
    simp
  · intro st i name v j hj
    exact stDefine_getElem_ne st i name v j hj

/-- C5 witness: the general parts applied at concrete inputs. -/
theorem c5_let_innermost_witness :
    evaluate 2 (.List [.Identifier "let", .Identifier "a", .Number 7]) 0 initState =
      some (.ok .Nil, stDefine initState 0 "a" (.Number 7)) ∧
    (stDefine initState 0 "a" (.Number 7))[1]? = initState[1]? :=
  ⟨c5_let_innermost.1 1 "a" (.Number 7) 0 initState (.Number 7) initState rfl,
   c5_let_innermost.2.1 initState 0 "a" (.Number 7) 1 (by decide)⟩

/-- C6.  Calling a lambda with an argument count different from its parameter
count fails with `WrongNumArgs`, uniformly in the body (so no body expression
is evaluated) and leaving the arena unchanged; a 2-parameter lambda called
with 1 or 3 arguments fails this way. -/
theorem c6_arity_enforcement :
    (∀ n params body cap args st, args.length ≠ params.length →
       apply_callable (n+1) (.Lambda params body cap) args st =
         some (.error (.WrongNumArgs
           (lambdaArityErrMsg params.length args.length)), st)) ∧
    runProgram 100 arityOneProg =
      some (.error (.WrongNumArgs (lambdaArityErrMsg 2 1))) ∧
    runProgram 100 arityThreeProg =
      some (.error (.WrongNumArgs (lambdaArityErrMsg 2 3))) := by
  refine ⟨?_, rfl, rfl⟩
  intro n params body cap args st h
  simp only [apply_callable, if_pos h]

/-- C6 witness: the general part applied at a concrete input. -/
theorem c6_arity_enforcement_witness :
    apply_callable 1 (.Lambda ["a", "b"] [.Identifier "a"] 0) [.Number 1] initState =
      some (.error (.WrongNumArgs (lambdaArityErrMsg 2 1)), initState) :=
  c6_arity_enforcement.1 0 ["a", "b"] [.Identifier "a"] 0 [.Number 1] initState
    (by decide)

/-- C9.  A program is evaluated node by node, in order, against the single
global environment (arena index 0): the empty program yields `Nil`; a node's
error is returned at once, uniformly in the remaining nodes (so none of them
is evaluated); a node's success feeds the updated arena to the rest of the
program, whose last value is the program's result. -/
theorem c9_program_evaluation :
    (∀ fuel, eval_program fuel [] = some (.ok .Nil, initState)) ∧
    (∀ fuel e rest last st err st1, evaluate fuel e 0 st = some (.error err, st1) →
       evalProgramLoop fuel (e :: rest) last st = some (.error err, st1)) ∧
    (∀ fuel e rest last st v st1, evaluate fuel e 0 st = some (.ok v, st1) →
       evalProgramLoop fuel (e :: rest) last st = evalProgramLoop fuel rest v st1) ∧
    (∀ fuel last st, evalProgramLoop fuel [] last st = some (.ok last, st)) ∧
    runProgram 100 persistProg = some (.ok (.Number 5)) ∧
    runProgram 100 lastValueProg = some (.ok (.Number 3)) ∧
    runProgram 100 abortProg = some (.error (.UndefinedVariable "z")) := by
  refine ⟨fun _ => rfl, ?_, ?_, fun _ _ _ => rfl, rfl, rfl, rfl⟩
  · intro fuel e rest last st err st1 h
    simp only [evalProgramLoop, h]
  · intro fuel e rest last st v st1 h
    simp only [evalProgramLoop, h]

/-- C9 witness: the error-abort and sequencing parts applied at concrete
inputs. -/
theorem c9_program_evaluation_witness :
    evalProgramLoop 1 [.Identifier "q", .Number 5] .Nil initState =
      some (.error (.UndefinedVariable "q"), initState) ∧
    evalProgramLoop 1 [.Number 1, .Number 2] .Nil initState =
      evalProgramLoop 1 [.Number 2] (.Number 1) initState :=
  ⟨c9_program_evaluation.2.1 1 (.Identifier "q") [.Number 5] .Nil initState
     (.UndefinedVariable "q") initState rfl,
   c9_program_evaluation.2.2.1 1 (.Number 1) [.Number 2] .Nil initState
     (.Number 1) initState rfl⟩

/-- C10 counterexample: in `(let x (+ (let y 2) z))` the `let`'s value
expression fails (unbound `z`), the error propagates — and yet the global
environment now holds a binding `y = 2` created by the nested `let` inside
the value expression, which it did not hold before.  So a failing `let` does
not leave every environment in the chain unchanged. -/
theorem c10_counterexample :
    runProgram 100 letFailProg = some (.error (.UndefinedVariable "z")) ∧
    (eval_program 100 letFailProg).map
        (fun r => match r.2[0]? with
          | some e => storeGet e.store "y"
          | none => none) = some (some (.Number 2)) ∧
    storeGet globalEnvironment.store "y" = none :=
  ⟨rfl, rfl, rfl⟩

/-- C10 amended.  The variable-name position of a `let` is validated before
the value expression is evaluated: a non-identifier name yields the
`TypeError` uniformly in the value expression (which is never evaluated),
with the arena unchanged; and when the value expression fails, the error
propagates with the arena exactly as that failed evaluation left it — the
`let` itself creates or overwrites no binding. -/
theorem c10_let_error_propagation :
    (∀ n varExpr vexpr i st, (∀ s, varExpr ≠ .Identifier s) →
       evaluate (n+1) (.List [.Identifier "let", varExpr, vexpr]) i st =
         some (.error (.TypeError letNameMsg), st)) ∧
    (∀ n name vexpr i st err st1, evaluate n vexpr i st = some (.error err, st1) →
       evaluate (n+1) (.List [.Identifier "let", .Identifier name, vexpr]) i st =
         some (.error err, st1)) := by
  constructor
  · intro n varExpr vexpr i st hv
    match varExpr, hv with
    | .Number a, _ => rfl
    | .String s, _ => rfl
    | .Boolean b, _ => rfl
    | .List l, _ => rfl
    | .Identifier s, hv => exact absurd rfl (hv s)
  · intro n name vexpr i st err st1 h
    simp only [evaluate, h]
    simp

/-- C10 witness: both parts of the amended claim applied at concrete
inputs. -/
theorem c10_let_error_propagation_witness :
    evaluate 1 (.List [.Identifier "let", .Number 3, .Number 4]) 0 initState =
      some (.error (.TypeError letNameMsg), initState) ∧
    evaluate 2 (.List [.Identifier "let", .Identifier "w", .Identifier "q"]) 0 initState =
      some (.error (.UndefinedVariable "q"), initState) :=
  ⟨c10_let_error_propagation.1 0 (.Number 3) (.Number 4) 0 initState
     (fun _ h => Expression.noConfusion h),
   c10_let_error_propagation.2 1 "w" (.Identifier "q") 0 initState
     (.UndefinedVariable "q") initState rfl⟩

/-- C1 counterexample: the program `(= (lambda (x) x) (lambda (x) x))`
compares two separately evaluated lambda forms with identical parameter
lists and bodies — and yields `Boolean true`, not `Boolean false`: the
derived `PartialEq` compares lambdas structurally (parameters, body,
captured environment), not by reference identity. -/
theorem c1_counterexample :
    runProgram 100 eqLambdasProg = some (.ok (.Boolean true)) ∧
    runProgram 100 eqLambdasProg ≠ some (.ok (.Boolean false)) := by
  refine ⟨rfl, ?_⟩
  intro h
  rw [show runProgram 100 eqLambdasProg = some (.ok (.Boolean true)) from rfl] at h
  simp at h

/-- C1 amended.  `=` compares data structurally (numbers, strings, booleans
by value, `Nil` only to `Nil`) and functions by the derived structural
comparison of the underlying `Callable`: builtins by function-pointer
identity, lambdas field-wise over parameters, body and captured environment;
hence two separately evaluated lambda forms with identical parameter lists
and bodies whose captured environments compare equal are `=`-equal, as in
`(= (lambda (x) x) (lambda (x) x))` → `true`. -/
theorem c1_structural_equality :
    (∀ n st a b, beqValue (n+1) st (.Number a) (.Number b) = some (decide (a = b))) ∧
    (∀ n st s t, beqValue (n+1) st (.String s) (.String t) = some (decide (s = t))) ∧
    (∀ n st x y, beqValue (n+1) st (.Boolean x) (.Boolean y) = some (x == y)) ∧
    (∀ n st, beqValue (n+1) st .Nil .Nil = some true) ∧
    (∀ n st v, v ≠ .Nil → beqValue (n+1) st .Nil v = some false) ∧
    (∀ n st f g, beqValue (n+2) st (.Function (.Builtin f)) (.Function (.Builtin g)) =
       some (decide (f = g))) ∧
    (∀ n st p b e1 e2, beqExprList n b b = some true →
       beqEnvRef n st e1 e2 = some true →
       beqValue (n+2) st (.Function (.Lambda p b e1)) (.Function (.Lambda p b e2)) =
         some true) ∧
    runProgram 100 eqLambdasProg = some (.ok (.Boolean true)) := by
  refine ⟨fun n st a b => rfl, fun n st s t => rfl, fun n st x y => rfl,
    fun n st => rfl, ?_, fun n st f g => rfl, ?_, rfl⟩
  · intro n st v hv
    match v, hv with
    | .Number a, _ => rfl
    | .String s, _ => rfl
    | .Boolean b, _ => rfl
    | .Function c, _ => rfl
    | .Nil, hv => exact absurd rfl hv
  · intro n st p b e1 e2 hb he
    show beqCallable (n+1) st (.Lambda p b e1) (.Lambda p b e2) = some true
    simp [beqCallable, hb, he]

/-- C1 witness: the hypothesis-bearing parts applied at concrete inputs. -/
theorem c1_structural_equality_witness :
    beqValue 1 initState .Nil (.Number 0) = some false ∧
    beqValue 52 initState (.Function (.Lambda ["x"] [.Identifier "x"] 0))
      (.Function (.Lambda ["x"] [.Identifier "x"] 0)) = some true :=
  ⟨c1_structural_equality.2.2.2.2.1 0 initState (.Number 0)
     (fun h => Value.noConfusion h),
   c1_structural_equality.2.2.2.2.2.2.1 50 initState ["x"] [.Identifier "x"] 0 0
     rfl rfl⟩

/-- C2 counterexample: in `(1 z)` with `z` unbound, the head evaluates to the
non-callable `Number 1`, yet the program fails with `UndefinedVariable "z"`,
not `NotCallable`: the arguments are evaluated before the callable check, so
the result is not `NotCallable` regardless of the argument expressions. -/
theorem c2_counterexample :
    runProgram 100 headNotCallableProg = some (.error (.UndefinedVariable "z")) ∧
    runProgram 100 headNotCallableProg ≠ some (.error (.NotCallable (.Number 1))) := by
  refine ⟨rfl, ?_⟩
  intro h
  rw [show runProgram 100 headNotCallableProg =
    some (.error (.UndefinedVariable "z")) from rfl] at h
  simp at h

/-- C2 amended.  A call form evaluates the head first (a head error
propagates), then every argument expression left-to-right in the caller's
environment (an argument error propagates, even when the head's value is not
callable), and only then checks the head's value: a non-`Function` head with
successfully evaluated arguments fails with `NotCallable` carrying the
offending value. -/
theorem c2_call_protocol :
    (∀ n f args i st err st1, evaluate n f i st = some (.error err, st1) →
       apply_function_call (n+1) f args i st = some (.error err, st1)) ∧
    (∀ n f args i st v st1 err st2, evaluate n f i st = some (.ok v, st1) →
       eval_args n args i st1 = some (.error err, st2) →
       apply_function_call (n+1) f args i st = some (.error err, st2)) ∧
    (∀ n f args i st v st1 vals st2, evaluate n f i st = some (.ok v, st1) →
       eval_args n args i st1 = some (.ok vals, st2) →
       (∀ c, v ≠ .Function c) →
       apply_function_call (n+1) f args i st =
         some (.error (.NotCallable v), st2)) ∧
    (∀ n a rest i st v st1, evaluate n a i st = some (.ok v, st1) →
       eval_args (n+1) (a :: rest) i st =
         match eval_args n rest i st1 with
         | none => none
         | some (.error err, st2) => some (.error err, st2)
         | some (.ok vs, st2) => some (.ok (v :: vs), st2)) := by
  refine ⟨?_, ?_, ?_, ?_⟩
  · intro n f args i st err st1 h
    simp only [apply_function_call, h]
  · intro n f args i st v st1 err st2 h1 h2
    simp only [apply_function_call, h1, h2]
  · intro n f args i st v st1 vals st2 h1 h2 hv
    simp only [apply_function_call, h1, h2]
  · intro n a rest i st v st1 h
    simp only [eval_args, h]

/-- C2 witness: the protocol parts applied at concrete inputs. -/
theorem c2_call_protocol_witness :
    apply_function_call 3 (.Number 1) [.Number 2] 0 initState =
      some (.error (.NotCallable (.Number 1)), initState) ∧
    apply_function_call 3 (.Identifier "nope") [] 0 initState =
      some (.error (.UndefinedVariable "nope"), initState) :=
  ⟨c2_call_protocol.2.2.1 2 (.Number 1) [.Number 2] 0 initState (.Number 1)
     initState [.Number 2] initState rfl rfl (fun _ h => Value.noConfusion h),
   c2_call_protocol.1 2 (.Identifier "nope") [] 0 initState
     (.UndefinedVariable "nope") initState rfl⟩

/-- C3 counterexample: the spec example `(let x 1) (let f (lambda () x))
(let x 2) (f)` evaluates to `Number 2`, not `Number 1`: the lambda captures
the global environment by shared reference, and the later top-level `let`
overwrites `x` in that same environment before the call. -/
theorem c3_counterexample :
    runProgram 100 captureOverwriteProg = some (.ok (.Number 2)) ∧
    runProgram 100 captureOverwriteProg ≠ some (.ok (.Number 1)) := by
  refine ⟨rfl, ?_⟩
  intro h
  rw [show runProgram 100 captureOverwriteProg =
    some (.ok (.Number 2)) from rfl] at h
  simp at h

/-- C3 amended.  A lambda form produces a `Function` capturing the defining
environment, and invoking it allocates a fresh environment whose parent is
the captured environment (the caller's environment is not even an input of
the dispatch), so free identifiers resolve lexically against the definition
site's chain in its state at call time: the spec's program yields `Number 2`
because the captured global binding of `x` was overwritten, while a call-site
shadowing of `x` is correctly ignored and `callShadowProg` yields
`Number 1`. -/
theorem c3_lexical_scoping :
    (∀ n pl b bs i st params, collectParams pl = .ok params →
       evaluate (n+1) (.List (.Identifier "lambda" :: .List pl :: b :: bs)) i st =
         some (.ok (.Function (.Lambda params (b :: bs) i)), st)) ∧
    (∀ n params body cap args st, args.length = params.length →
       apply_callable (n+1) (.Lambda params body cap) args st =
         evalSeq n body st.length
           (st ++ [{ store := bindParams params args, parent := some cap }]) .Nil) ∧
    runProgram 100 captureOverwriteProg = some (.ok (.Number 2)) ∧
    runProgram 100 callShadowProg = some (.ok (.Number 1)) := by
  refine ⟨?_, ?_, rfl, rfl⟩
  · intro n pl b bs i st params h
    simp only [evaluate, h]
    simp
  · intro n params body cap args st h
    simp [apply_callable, h]

/-- C3 witness: the capture and allocation parts applied at concrete
inputs. -/
theorem c3_lexical_scoping_witness :
    evaluate 1 (.List [.Identifier "lambda", .List [.Identifier "y"],
        .Identifier "y"]) 0 initState =
      some (.ok (.Function (.Lambda ["y"] [.Identifier "y"] 0)), initState) ∧
    apply_callable 1 (.Lambda ["y"] [.Identifier "y"] 0) [.Number 4] initState =
      evalSeq 0 [.Identifier "y"] initState.length
        (initState ++ [{ store := bindParams ["y"] [.Number 4], parent := some 0 }])
        .Nil :=
  ⟨c3_lexical_scoping.1 0 [.Identifier "y"] (.Identifier "y") [] 0 initState
     ["y"] rfl,
   c3_lexical_scoping.2.1 0 ["y"] [.Identifier "y"] 0 [.Number 4] initState rfl⟩

/-- C7.  `/` requires exactly two arguments (`WrongNumArgs` otherwise), both
numbers (`TypeError` otherwise); a divisor equal to 0 fails with
`DivisionByZero`, and otherwise the exact rational quotient is returned
(in the exact-arithmetic model no NaN or infinite value exists to
propagate). -/
theorem c7_division :
    (∀ args, args.length ≠ 2 →
       builtin_div args = .error (.WrongNumArgs (numArgsMsg "/" 2 args.length))) ∧
    (∀ v w, (∀ q, v ≠ .Number q) →
       builtin_div [v, w] = .error (.TypeError (numbersMsg "/"))) ∧
    (∀ a w, (∀ q, w ≠ .Number q) →
       builtin_div [.Number a, w] = .error (.TypeError (numbersMsg "/"))) ∧
    (∀ a, builtin_div [.Number a, .Number 0] = .error .DivisionByZero) ∧
    (∀ a b, b ≠ 0 → builtin_div [.Number a, .Number b] = .ok (.Number (a / b))) := by
  refine ⟨?_, ?_, ?_, fun a => rfl, ?_⟩
  · intro args h
    simp [builtin_div, get_two_num_args, check_num_args, h]
  · intro v w hv
    match v, hv with
    | .String s, _ => rfl
    | .Boolean b, _ => rfl
    | .Nil, _ => rfl
    | .Function c, _ => rfl
    | .Number q, hv => exact absurd rfl (hv q)
  · intro a w hw
    match w, hw with
    | .String s, _ => rfl
    | .Boolean b, _ => rfl
    | .Nil, _ => rfl
    | .Function c, _ => rfl
    | .Number q, hw => exact absurd rfl (hw q)
  · intro a b hb
    simp [builtin_div, get_two_num_args, check_num_args, get_num_arg, hb]

/-- C7 witness: every case of the division contract at a concrete input. -/
theorem c7_division_witness :
    builtin_div [] = .error (.WrongNumArgs (numArgsMsg "/" 2 0)) ∧
    builtin_div [.String "a", .Number 1] = .error (.TypeError (numbersMsg "/")) ∧
    builtin_div [.Number 1, .String "a"] = .error (.TypeError (numbersMsg "/")) ∧
    builtin_div [.Number 1, .Number 0] = .error .DivisionByZero ∧
    builtin_div [.Number 7, .Number 2] = .ok (.Number (7 / 2)) :=
  ⟨c7_division.1 [] (by decide),
   c7_division.2.1 (.String "a") (.Number 1) (fun q h => Value.noConfusion h),
   c7_division.2.2.1 1 (.String "a") (fun q h => Value.noConfusion h),
   c7_division.2.2.2.1 1,
   c7_division.2.2.2.2 7 2 (by decide)⟩

/-- C8.  `+` and `*` fold over all (numeric) arguments with identities 0 and
1 for the empty call; `-` requires at least one argument, negates a single
argument, and with two or more returns the first minus the sum of the rest;
in particular `(- 10 3 2)` is `5`. -/
theorem c8_arith_folds :
    (∀ qs : List ℚ, builtin_add (qs.map .Number) = .ok (.Number qs.sum)) ∧
    builtin_add [] = .ok (.Number 0) ∧
    (∀ qs : List ℚ, builtin_mul (qs.map .Number) = .ok (.Number qs.prod)) ∧
    builtin_mul [] = .ok (.Number 1) ∧
    builtin_sub [] = .error (.WrongNumArgs (minArgsMsg "-" 1 0)) ∧
    (∀ a : ℚ, builtin_sub [.Number a] = .ok (.Number (-a))) ∧
    (∀ (a b : ℚ) (qs : List ℚ),
       builtin_sub ((a :: b :: qs).map .Number) =
         .ok (.Number (a - (b :: qs).sum))) ∧
    builtin_sub [.Number 10, .Number 3, .Number 2] = .ok (.Number 5) := by
  have hadd : ∀ qs : List ℚ, builtin_add (qs.map .Number) = .ok (.Number qs.sum) := by
    intro qs
    simp [builtin_add, get_all_num_args_map]
  have hmul : ∀ qs : List ℚ, builtin_mul (qs.map .Number) = .ok (.Number qs.prod) := by
    intro qs
    simp [builtin_mul, get_all_num_args_map]
  have hsub : ∀ (a b : ℚ) (qs : List ℚ),
      builtin_sub ((a :: b :: qs).map .Number) = .ok (.Number (a - (b :: qs).sum)) := by
    intro a b qs
    have h1 : ¬ ((a :: b :: qs).map Value.Number).length < 1 := by simp
    have h2 : get_all_num_args "-" (.Number a :: .Number b :: qs.map .Number) =
        .ok (a :: b :: qs) := by
      simpa using get_all_num_args_map "-" (a :: b :: qs)
    simp [builtin_sub, check_min_args, h1, h2]
  refine ⟨hadd, by simpa using hadd [], hmul, by simpa using hmul [], rfl,
    ?_, hsub, ?_⟩
  · intro a
    simp [builtin_sub, check_min_args, get_all_num_args, get_num_arg]
  · calc builtin_sub [.Number 10, .Number 3, .Number 2]
        = .ok (.Number ((10 : ℚ) - ([3, 2] : List ℚ).sum)) := rfl
      _ = .ok (.Number 5) := by
          have h5 : ((10 : ℚ) - ([3, 2] : List ℚ).sum) = 5 := by
            norm_num [List.sum_cons, List.sum_nil]
          rw [h5]

end Lisp
